import Mathlib

/-!
Shallow embedding of the software-based BCCSP dispatch engine
(`bccsp/sw/impl.go`): key generation, key derivation and key import,
together with the persistence (key-store) policy shared by the three.

Modelling conventions:
* Byte slices are lists of naturals (`Bytes`); `big.Int.SetBytes` is the
  big-endian valuation `bytesToNat`.
* The elliptic curve is an external collaborator (Go `crypto/elliptic`):
  points live in an arbitrary additive commutative group `P`, and a
  `CurveModel` packages the base point `G` (so that `ScalarBaseMult` of the
  big-endian bytes of a scalar `kk` is `kk • G`, `Add` is `+`), the group
  order `N` (the `Params().N` field) and the `IsOnCurve` predicate.
* Go functions returning `(value, error)` become `GoResult`; a Go runtime
  panic (big.Int division by zero, out-of-range slicing) is the distinct
  outcome `panicked`, which is not an error return.
* Each operation additionally returns the list of keys passed to the key
  store, in order, so that store-call frame properties can be stated.
* `utils.Clone` copies a byte slice; lists are values, so it is the
  identity here.
-/

namespace BccspSw

/-- A Go byte slice, as a list of byte values. -/
abbrev Bytes := List Nat

/-- Big-endian valuation of a byte slice: `new(big.Int).SetBytes(b)`. -/
def bytesToNat (b : Bytes) : Nat :=
  b.foldl (fun a x => a * 256 + x) 0

/-- The error values produced by `KeyGen`, `KeyDeriv` and `KeyImport` in
`impl.go`, one constructor per distinct `errors.New` / `fmt.Errorf` site;
arguments record the data interpolated into the message. -/
inductive CspError where
  /-- Invalid Key. It must not be nil. -/
  | invalidKeyNil
  /-- Invalid Opts parameter. It must not be nil. -/
  | invalidOptsNil
  /-- Invalid raw. Cannot be nil. -/
  | invalidRawNil
  /-- Invalid raw material. Expected another runtime type (context string
  names the import-options variant). -/
  | invalidRawMaterial (ctx : String)
  /-- Invalid Key Length, with the actual length. Must be 32 bytes. -/
  | invalidKeyLength (len : Nat)
  /-- Invalid raw. It must not be nil (empty byte slice on import). -/
  | invalidRawEmpty (ctx : String)
  /-- Failed generating a key (underlying primitive failure). -/
  | primitiveFailed (ctx : String) (msg : String)
  /-- Failed converting DER material to a key. -/
  | conversionFailed (ctx : String) (msg : String)
  /-- Failed casting a decoded key to the expected runtime type. -/
  | castingFailed (ctx : String)
  /-- Failed temporary public key IsOnCurve check. -/
  | isOnCurveFailed
  /-- Failed storing a key: persistence failure, with the underlying
  key-store message. -/
  | storeFailed (ctx : String) (msg : String)
  /-- Unrecognized KeyGenOpts provided, naming the requested algorithm. -/
  | unrecognizedKeyGenOpts (alg : String)
  /-- Unrecognized KeyDerivOpts provided, naming the requested algorithm. -/
  | unrecognizedKeyDerivOpts (alg : String)
  /-- Key type not recognized (the default branch of KeyDeriv). -/
  | keyTypeNotRecognized
  /-- Unsupported KeyImportOptions provided. -/
  | unsupportedKeyImportOpts
  /-- Certificate public key type not recognized. -/
  | certKeyTypeNotRecognized
  deriving DecidableEq

/-- Outcome of a Go call returning `(value, error)`: either a value, an
error, or a runtime panic (which is not an error return). -/
inductive GoResult (α : Type) where
  | ok (a : α)
  | err (e : CspError)
  | panicked
  deriving DecidableEq

/-- True exactly on a successful (`ok`) outcome. -/
def GoResult.isOk {α : Type} : GoResult α → Bool
  | .ok _ => true
  | _ => false

/-- The key variants handled by the engine (`ecdsaPrivateKey`,
`ecdsaPublicKey`, `rsaPrivateKey`, `rsaPublicKey`, `aesPrivateKey` of the
`sw` package), over an abstract point type `P`.  RSA key material is out of
scope and kept opaque as a tag.

Modelled from the spec: the second field of `aesPrivateKey` (file
`aeskey.go`, not in the sources) is the boolean exportable flag carried by
symmetric keys. -/
inductive SwKey (P : Type) where
  | ecdsaPrivateKey (d : Nat) (q : P)
  | ecdsaPublicKey (q : P)
  | rsaPrivateKey (material : Nat)
  | rsaPublicKey (material : Nat)
  | aesPrivateKey (privKey : Bytes) (exportable : Bool)
  deriving DecidableEq

/-- The `bccsp.KeyDerivOpts` runtime variants reaching `KeyDeriv`:
`ECDSAReRandKeyOpts`, `HMACTruncated256AESDeriveKeyOpts`,
`HMACDeriveKeyOpts`, or any other implementation of the interface
(`otherDeriv`, carrying only the diagnostic algorithm label).

Modelled from the spec: the options types live in `bccsp/opts.go` (not in
the sources); each carries an ephemeral flag and an algorithm label used
only for diagnostics, plus the expansion value or HMAC argument. -/
inductive KeyDerivOptsV where
  | ecdsaReRand (temporary : Bool) (expansionValue : Bytes)
  | hmacTruncated256 (temporary : Bool) (argument : Bytes)
  | hmacDeriv (temporary : Bool) (argument : Bytes)
  | otherDeriv (temporary : Bool) (algorithm : String)
  deriving DecidableEq

/-- `opts.Ephemeral()` for derivation options. -/
def KeyDerivOptsV.ephemeral : KeyDerivOptsV → Bool
  | .ecdsaReRand t _ => t
  | .hmacTruncated256 t _ => t
  | .hmacDeriv t _ => t
  | .otherDeriv t _ => t

/-- `opts.Algorithm()` for derivation options (diagnostic label only). -/
def KeyDerivOptsV.algorithmName : KeyDerivOptsV → String
  | .ecdsaReRand _ _ => "ECDSA_RERAND"
  | .hmacTruncated256 _ _ => "HMAC_TRUNCATED_256"
  | .hmacDeriv _ _ => "HMAC"
  | .otherDeriv _ a => a

/-- The elliptic-curve collaborator: base point, group order `N`
(`Params().N`) and the `IsOnCurve` predicate, over a point group `P`. -/
structure CurveModel (P : Type) where
  G : P
  N : Nat
  isOnCurve : P → Bool

/-- The resolved configuration (`conf.go`, not in the sources).

Modelled from the spec: `aesBitLength` is the configured symmetric key
length in bytes (the field `csp.conf.aesBitLength` used both by AES key
generation and by truncated HMAC derivation), `rsaBitLength` the RSA
modulus bit length, and `hashLength` the byte length of the digests of the
configured hash function `csp.conf.hashFunction`. -/
structure Config where
  aesBitLength : Nat
  rsaBitLength : Nat
  hashLength : Nat

/-- Go slicing `l[:n]`: in bounds when `n ≤ len(l)`, otherwise a runtime
panic (`none`). -/
def goSliceTo (l : Bytes) (n : Nat) : Option Bytes :=
  if n ≤ l.length then some (l.take n) else none

/-- The persistence step shared by every creation path of `impl.go`:
`if !opts.Ephemeral() { err = csp.ks.StoreKey(k); if err != nil { return nil, ... } }; return k, nil`.
The second component records the keys passed to `StoreKey`. -/
def storeIfNotEphemeral {P : Type} (store : SwKey P → Option String)
    (ctx : String) (eph : Bool) (key : SwKey P) :
    GoResult (SwKey P) × List (SwKey P) :=
  if eph then (.ok key, [])
  else
    match store key with
    | some msg => (.err (.storeFailed ctx msg), [key])
    | none => (.ok key, [key])

/-- The key variants `impl.KeyDeriv` recognizes in its outer switch
(`case ecdsaPublicKey`, `case ecdsaPrivateKey`, `case aesPrivateKey`);
every other key falls to the default `Key type not recognized` branch. -/
def recognizedDerivKey {P : Type} : SwKey P → Bool
  | .ecdsaPrivateKey _ _ => true
  | .ecdsaPublicKey _ => true
  | .aesPrivateKey _ _ => true
  | _ => false

/-- The derivation proper of `impl.KeyDeriv`, per recognized
(key, options) combination, before the shared persistence step:

* EC re-randomization (lines 279-306 for a public key, 334-368 for a
  private key): `k := SetBytes(ExpansionValue); n := N - 1;
  k = k mod n + 1` (`big.Int.Mod` panics when the modulus `N - 1` is
  zero); `ScalarBaseMult(k.Bytes())` is `kk • G`; the new point is
  `Q + kk • G`, checked with `IsOnCurve`; a private key additionally gets
  the scalar `(D + k) mod N`.
* HMAC derivation (lines 394-399 truncated, 412-418 full):
  `mac := hmacSum key argument`; the truncated variant keeps
  `mac[:conf.aesBitLength]` (a panic when out of range) with the
  exportable flag `false`, the full variant keeps all of `mac` with the
  exportable flag `true`.
* Any other combination: `Unrecognized KeyDerivOpts provided`. -/
def keyDerivCompute {P : Type} [AddCommGroup P] (cm : CurveModel P)
    (conf : Config) (hmacSum : Bytes → Bytes → Bytes) (key : SwKey P)
    (o : KeyDerivOptsV) : GoResult (SwKey P) :=
  match key, o with
  | .ecdsaPublicKey q, .ecdsaReRand _ expansion =>
    if cm.N - 1 = 0 then .panicked
    else
      let kk := bytesToNat expansion % (cm.N - 1) + 1
      let temp := q + kk • cm.G
      if cm.isOnCurve temp then .ok (.ecdsaPublicKey temp)
      else .err .isOnCurveFailed
  | .ecdsaPrivateKey d q, .ecdsaReRand _ expansion =>
    if cm.N - 1 = 0 then .panicked
    else
      let kk := bytesToNat expansion % (cm.N - 1) + 1
      let dNew := (d + kk) % cm.N
      let qNew := q + kk • cm.G
      if cm.isOnCurve qNew then .ok (.ecdsaPrivateKey dNew qNew)
      else .err .isOnCurveFailed
  | .aesPrivateKey material _, .hmacTruncated256 _ arg =>
    match goSliceTo (hmacSum material arg) conf.aesBitLength with
    | none => .panicked
    | some trunc => .ok (.aesPrivateKey trunc false)
  | .aesPrivateKey material _, .hmacDeriv _ arg =>
    .ok (.aesPrivateKey (hmacSum material arg) true)
  | _, o => .err (.unrecognizedKeyDerivOpts o.algorithmName)

/-- `impl.KeyDeriv` (`impl.go` lines 260-439).  Parameters: the curve
collaborator `cm`, the configuration, the keyed MAC collaborator
`hmacSum key msg` (the value of `hmac.New(csp.conf.hashFunction, key);
Write(msg); Sum(nil)`), the key store `store` (`none` is success), the key
and the options (`none` models a nil interface value).  A nil key is
rejected first; an unrecognized key variant hits the default branch
without looking at the options; each recognized key branch rejects nil
options, performs the derivation (`keyDerivCompute`) and applies the
shared persistence step, whose context string is `ECDSA` at all four
creation sites (lines 313, 375, 406, 425).  Returns the call outcome and
the list of keys passed to `StoreKey`. -/
def keyDeriv {P : Type} [AddCommGroup P] (cm : CurveModel P) (conf : Config)
    (hmacSum : Bytes → Bytes → Bytes) (store : SwKey P → Option String)
    (k : Option (SwKey P)) (opts : Option KeyDerivOptsV) :
    GoResult (SwKey P) × List (SwKey P) :=
  match k with
  | none => (.err .invalidKeyNil, [])
  | some key =>
    if recognizedDerivKey key then
      match opts with
      | none => (.err .invalidOptsNil, [])
      | some o =>
        match keyDerivCompute cm conf hmacSum key o with
        | .panicked => (.panicked, [])
        | .err e => (.err e, [])
        | .ok dk => storeIfNotEphemeral store "ECDSA" o.ephemeral dk
    else (.err .keyTypeNotRecognized, [])

/-- The `bccsp.KeyGenOpts` runtime variants recognized by `KeyGen`, plus
`otherGen` for any other implementation of the interface.

Modelled from the spec: the options types live in `bccsp/opts.go` (not in
the sources); each carries an ephemeral flag and an algorithm label used
only for diagnostics. -/
inductive KeyGenOptsV where
  | ecdsaGen (temporary : Bool)
  | ecdsaP256Gen (temporary : Bool)
  | ecdsaP384Gen (temporary : Bool)
  | aesGen (temporary : Bool)
  | aes256Gen (temporary : Bool)
  | aes192Gen (temporary : Bool)
  | aes128Gen (temporary : Bool)
  | rsaGen (temporary : Bool)
  | rsa1024Gen (temporary : Bool)
  | rsa2048Gen (temporary : Bool)
  | rsa3072Gen (temporary : Bool)
  | rsa4096Gen (temporary : Bool)
  | otherGen (temporary : Bool) (algorithm : String)
  deriving DecidableEq

/-- `opts.Ephemeral()` for generation options. -/
def KeyGenOptsV.ephemeral : KeyGenOptsV → Bool
  | .ecdsaGen t | .ecdsaP256Gen t | .ecdsaP384Gen t => t
  | .aesGen t | .aes256Gen t | .aes192Gen t | .aes128Gen t => t
  | .rsaGen t | .rsa1024Gen t | .rsa2048Gen t | .rsa3072Gen t
  | .rsa4096Gen t => t
  | .otherGen t _ => t

/-- `opts.Algorithm()` for generation options (diagnostic label only). -/
def KeyGenOptsV.algorithmName : KeyGenOptsV → String
  | .ecdsaGen _ => "ECDSA"
  | .ecdsaP256Gen _ => "ECDSAP256"
  | .ecdsaP384Gen _ => "ECDSAP384"
  | .aesGen _ => "AES"
  | .aes256Gen _ => "AES256"
  | .aes192Gen _ => "AES192"
  | .aes128Gen _ => "AES128"
  | .rsaGen _ => "RSA"
  | .rsa1024Gen _ => "RSA1024"
  | .rsa2048Gen _ => "RSA2048"
  | .rsa3072Gen _ => "RSA3072"
  | .rsa4096Gen _ => "RSA4096"
  | .otherGen _ a => a

/-- The curve argument of `ecdsa.GenerateKey`: the configured curve,
`elliptic.P256()` or `elliptic.P384()`. -/
inductive CurveChoice where
  | confCurve | p256 | p384
  deriving DecidableEq

/-- The random-generation collaborators consumed by `KeyGen`: outcomes of
`ecdsa.GenerateKey(curve, rand.Reader)` (scalar and public point),
`GetRandomBytes(len)` and `rsa.GenerateKey(rand.Reader, bits)` (opaque
material tag).  `Except.error` carries the underlying failure message. -/
structure GenEnv (P : Type) where
  ecdsaGenerateKey : CurveChoice → Except String (Nat × P)
  getRandomBytes : Nat → Except String Bytes
  rsaGenerateKey : Nat → Except String Nat

/-- The generation switch of `impl.KeyGen` (`impl.go` lines 136-244):
one case per recognized options variant, each invoking its primitive,
plus the default `Unrecognized KeyGenOpts provided` branch. -/
def keyGenCompute {P : Type} (conf : Config) (genv : GenEnv P)
    (o : KeyGenOptsV) : Except CspError (SwKey P) :=
  match o with
  | .ecdsaGen _ =>
    match genv.ecdsaGenerateKey .confCurve with
    | .error msg => .error (.primitiveFailed "ECDSA" msg)
    | .ok dq => .ok (.ecdsaPrivateKey dq.1 dq.2)
  | .ecdsaP256Gen _ =>
    match genv.ecdsaGenerateKey .p256 with
    | .error msg => .error (.primitiveFailed "ECDSA P256" msg)
    | .ok dq => .ok (.ecdsaPrivateKey dq.1 dq.2)
  | .ecdsaP384Gen _ =>
    match genv.ecdsaGenerateKey .p384 with
    | .error msg => .error (.primitiveFailed "ECDSA P384" msg)
    | .ok dq => .ok (.ecdsaPrivateKey dq.1 dq.2)
  | .aesGen _ =>
    match genv.getRandomBytes conf.aesBitLength with
    | .error msg => .error (.primitiveFailed "AES" msg)
    | .ok b => .ok (.aesPrivateKey b false)
  | .aes256Gen _ =>
    match genv.getRandomBytes 32 with
    | .error msg => .error (.primitiveFailed "AES 256" msg)
    | .ok b => .ok (.aesPrivateKey b false)
  | .aes192Gen _ =>
    match genv.getRandomBytes 24 with
    | .error msg => .error (.primitiveFailed "AES 192" msg)
    | .ok b => .ok (.aesPrivateKey b false)
  | .aes128Gen _ =>
    match genv.getRandomBytes 16 with
    | .error msg => .error (.primitiveFailed "AES 128" msg)
    | .ok b => .ok (.aesPrivateKey b false)
  | .rsaGen _ =>
    match genv.rsaGenerateKey conf.rsaBitLength with
    | .error msg => .error (.primitiveFailed "RSA" msg)
    | .ok m => .ok (.rsaPrivateKey m)
  | .rsa1024Gen _ =>
    match genv.rsaGenerateKey 1024 with
    | .error msg => .error (.primitiveFailed "RSA 1024" msg)
    | .ok m => .ok (.rsaPrivateKey m)
  | .rsa2048Gen _ =>
    match genv.rsaGenerateKey 2048 with
    | .error msg => .error (.primitiveFailed "RSA 2048" msg)
    | .ok m => .ok (.rsaPrivateKey m)
  | .rsa3072Gen _ =>
    match genv.rsaGenerateKey 3072 with
    | .error msg => .error (.primitiveFailed "RSA 3072" msg)
    | .ok m => .ok (.rsaPrivateKey m)
  | .rsa4096Gen _ =>
    match genv.rsaGenerateKey 4096 with
    | .error msg => .error (.primitiveFailed "RSA 4096" msg)
    | .ok m => .ok (.rsaPrivateKey m)
  | .otherGen _ alg => .error (.unrecognizedKeyGenOpts alg)

/-- `impl.KeyGen` (`impl.go` lines 129-256): reject nil options, branch on
the options variant (`keyGenCompute`), then apply the shared persistence
step, whose context string is `opts.Algorithm()` (line 251). -/
def keyGen {P : Type} (conf : Config) (genv : GenEnv P)
    (store : SwKey P → Option String) (opts : Option KeyGenOptsV) :
    GoResult (SwKey P) × List (SwKey P) :=
  match opts with
  | none => (.err .invalidOptsNil, [])
  | some o =>
    match keyGenCompute conf genv o with
    | .error e => (.err e, [])
    | .ok kk => storeIfNotEphemeral store o.algorithmName o.ephemeral kk

/-- The `bccsp.KeyImportOpts` runtime variants recognized by `KeyImport`,
plus `otherImport` for any other implementation of the interface.

Modelled from the spec: the options types live in `bccsp/opts.go` (not in
the sources); each carries an ephemeral (`Temporary`) flag. -/
inductive KeyImportOptsV where
  | aes256Import (temporary : Bool)
  | hmacImport (temporary : Bool)
  | ecdsaPKIXPublicImport (temporary : Bool)
  | ecdsaPrivateImport (temporary : Bool)
  | ecdsaGoPublicImport (temporary : Bool)
  | rsaGoPublicImport (temporary : Bool)
  | x509PublicImport (temporary : Bool)
  | otherImport (temporary : Bool)
  deriving DecidableEq

/-- `opts.Ephemeral()` for import options. -/
def KeyImportOptsV.ephemeral : KeyImportOptsV → Bool
  | .aes256Import t | .hmacImport t | .ecdsaPKIXPublicImport t
  | .ecdsaPrivateImport t | .ecdsaGoPublicImport t | .rsaGoPublicImport t
  | .x509PublicImport t | .otherImport t => t

/-- The public key embedded in an `x509.Certificate`: an ECDSA key, an RSA
key, or an unsupported type. -/
inductive CertPublicKeyV (P : Type) where
  | ecdsaPK (q : P)
  | rsaPK (material : Nat)
  | otherPK
  deriving DecidableEq

/-- The runtime type of the `raw interface` argument of `KeyImport`: a byte
slice, an already-parsed native public key, an x509 certificate, or any
other value. -/
inductive RawMaterial (P : Type) where
  | byteArray (b : Bytes)
  | goEcdsaPublicKey (q : P)
  | goRsaPublicKey (material : Nat)
  | x509Certificate (pk : CertPublicKeyV P)
  | otherRaw
  deriving DecidableEq

/-- Result of `utils.DERToPublicKey`: an ECDSA public key or some other
key type (which then fails the cast in `KeyImport`). -/
inductive DecodedPublicKey (P : Type) where
  | ecdsaPK (q : P)
  | otherPK
  deriving DecidableEq

/-- Result of `utils.DERToPrivateKey`: an ECDSA private key or some other
key type (which then fails the cast in `KeyImport`). -/
inductive DecodedPrivateKey (P : Type) where
  | ecdsaSK (d : Nat) (q : P)
  | otherSK
  deriving DecidableEq

/-- The DER-decoding collaborators (`bccsp/utils`, out of scope) consumed
by `KeyImport`. -/
structure ImportEnv (P : Type) where
  derToPublicKey : Bytes → Except String (DecodedPublicKey P)
  derToPrivateKey : Bytes → Except String (DecodedPrivateKey P)

/-- The per-variant validation and construction of `impl.KeyImport`
(`impl.go` lines 453-624), before the shared persistence step.  On
success, the result pairs the context string of the corresponding
`Failed storing ...` message with the constructed key (`AES` in the two
symmetric branches, `ECDSA` in the three EC branches, `RSA publi` in the
RSA branch, exactly as in the source).  The recursive calls of the x509
branch (`csp.KeyImport(pk, &ECDSAGoPublicKeyImportOpts{Temporary:
opts.Ephemeral()})` and the RSA analogue) are inlined: a certificate key
of native ECDSA or RSA type always passes the type assertion of the
target branch. -/
def keyImportCompute {P : Type} (ienv : ImportEnv P) (rawV : RawMaterial P)
    (o : KeyImportOptsV) : Except CspError (String × SwKey P) :=
  match o with
  | .aes256Import _ =>
    match rawV with
    | .byteArray b =>
      if b.length ≠ 32 then .error (.invalidKeyLength b.length)
      else .ok ("AES", .aesPrivateKey b false)
    | _ => .error (.invalidRawMaterial "AES256ImportKeyOpts")
  | .hmacImport _ =>
    match rawV with
    | .byteArray b =>
      if b.length = 0 then .error (.invalidRawEmpty "HMACImportKeyOpts")
      else .ok ("AES", .aesPrivateKey b false)
    | _ => .error (.invalidRawMaterial "HMACImportKeyOpts")
  | .ecdsaPKIXPublicImport _ =>
    match rawV with
    | .byteArray der =>
      if der.length = 0 then
        .error (.invalidRawEmpty "ECDSAPKIXPublicKeyImportOpts")
      else
        match ienv.derToPublicKey der with
        | .error msg =>
          .error (.conversionFailed "PKIX to ECDSA public key" msg)
        | .ok (.ecdsaPK q) => .ok ("ECDSA", .ecdsaPublicKey q)
        | .ok .otherPK => .error (.castingFailed "ECDSA public key")
    | _ => .error (.invalidRawMaterial "ECDSAPKIXPublicKeyImportOpts")
  | .ecdsaPrivateImport _ =>
    match rawV with
    | .byteArray der =>
      if der.length = 0 then
        .error (.invalidRawEmpty "ECDSADERPrivateKeyImportOpts")
      else
        match ienv.derToPrivateKey der with
        | .error msg =>
          .error (.conversionFailed "PKIX to ECDSA public key" msg)
        | .ok (.ecdsaSK d q) => .ok ("ECDSA", .ecdsaPrivateKey d q)
        | .ok .otherSK => .error (.castingFailed "ECDSA public key")
    | _ => .error (.invalidRawMaterial "ECDSADERPrivateKeyImportOpts")
  | .ecdsaGoPublicImport _ =>
    match rawV with
    | .goEcdsaPublicKey q => .ok ("ECDSA", .ecdsaPublicKey q)
    | _ => .error (.invalidRawMaterial "ECDSAGoPublicKeyImportOpts")
  | .rsaGoPublicImport _ =>
    match rawV with
    | .goRsaPublicKey m => .ok ("RSA publi", .rsaPublicKey m)
    | _ => .error (.invalidRawMaterial "RSAGoPublicKeyImportOpts")
  | .x509PublicImport _ =>
    match rawV with
    | .x509Certificate pk =>
      match pk with
      | .ecdsaPK q => .ok ("ECDSA", .ecdsaPublicKey q)
      | .rsaPK m => .ok ("RSA publi", .rsaPublicKey m)
      | .otherPK => .error .certKeyTypeNotRecognized
    | _ => .error (.invalidRawMaterial "X509PublicKeyImportOpts")
  | .otherImport _ => .error .unsupportedKeyImportOpts

/-- `impl.KeyImport` (`impl.go` lines 443-625): reject nil raw material,
then nil options; validate and construct per the options variant
(`keyImportCompute`), then apply the shared persistence step.  The x509
branch persists through its recursive call with the same ephemeral flag
(`Temporary: opts.Ephemeral()`). -/
def keyImport {P : Type} (ienv : ImportEnv P)
    (store : SwKey P → Option String) (raw : Option (RawMaterial P))
    (opts : Option KeyImportOptsV) :
    GoResult (SwKey P) × List (SwKey P) :=
  match raw with
  | none => (.err .invalidRawNil, [])
  | some rawV =>
    match opts with
    | none => (.err .invalidOptsNil, [])
    | some o =>
      match keyImportCompute ienv rawV o with
      | .error e => (.err e, [])
      | .ok ck => storeIfNotEphemeral store ck.1 o.ephemeral ck.2

/-- The (key variant, derivation options variant) combinations that
`KeyDeriv` supports, per the specification: an EC private or EC public key
with re-randomization options, or a symmetric key with one of the two
HMAC-derivation options. -/
def supportedDerivCombo {P : Type} : SwKey P → KeyDerivOptsV → Bool
  | .ecdsaPrivateKey _ _, .ecdsaReRand _ _ => true
  | .ecdsaPublicKey _, .ecdsaReRand _ _ => true
  | .aesPrivateKey _ _, .hmacTruncated256 _ _ => true
  | .aesPrivateKey _ _, .hmacDeriv _ _ => true
  | _, _ => false

/-- A five-element point group for concrete evaluations: `ZMod 5` with
base point `1`, order `5`, every point accepted by the curve check. -/
def cm5 : CurveModel (ZMod 5) :=
  { G := 1, N := 5, isOnCurve := fun _ => true }

/-- A small concrete configuration: symmetric keys of 2 bytes, digests of
3 bytes. -/
def conf5 : Config :=
  { aesBitLength := 2, rsaBitLength := 2048, hashLength := 3 }

/-- A concrete keyed-MAC collaborator whose output on one-byte key and
one-byte message has length `conf5.hashLength`. -/
def hmac5 : Bytes → Bytes → Bytes := fun key msg => key ++ msg ++ [7]

/-- A concrete random-generation collaborator over `ZMod 5`. -/
def genv5 : GenEnv (ZMod 5) :=
  { ecdsaGenerateKey := fun _ => .ok (2, (2 : ZMod 5))
    getRandomBytes := fun n => .ok (List.replicate n 0)
    rsaGenerateKey := fun _ => .ok 9 }

/-- A concrete DER-decoding collaborator over `ZMod 5`. -/
def ienv5 : ImportEnv (ZMod 5) :=
  { derToPublicKey := fun _ => .ok (.ecdsaPK 3)
    derToPrivateKey := fun _ => .ok (.ecdsaSK 2 3) }

/-- A key store that accepts every key. -/
def storeOk5 : SwKey (ZMod 5) → Option String := fun _ => none

/-- A key store that rejects every key with the message `boom`. -/
def storeFail5 : SwKey (ZMod 5) → Option String := fun _ => some "boom"

/-- A configuration whose symmetric key byte length exceeds the digest
length of the configured hash, exercising the out-of-range truncation. -/
def confBad : Config :=
  { aesBitLength := 9, rsaBitLength := 1024, hashLength := 3 }

/-- The exportable flag of a symmetric key (`none` for the other key
variants). -/
def SwKey.exportableFlag {P : Type} : SwKey P → Option Bool
  | .aesPrivateKey _ e => some e
  | _ => none

/-! ## General lemmas about the shared persistence step -/

/-- With the ephemeral flag set, the persistence step returns the key and
never touches the store. -/
theorem storeStep_ephemeral {P : Type} (store : SwKey P → Option String)
    (ctx : String) (key : SwKey P) :
    storeIfNotEphemeral store ctx true key = (.ok key, []) := rfl

/-- Without the ephemeral flag, a successful store returns the key after
one store call. -/
theorem storeStep_store_ok {P : Type} {store : SwKey P → Option String}
    (ctx : String) {key : SwKey P} (h : store key = none) :
    storeIfNotEphemeral store ctx false key = (.ok key, [key]) := by
  simp [storeIfNotEphemeral, h]

/-- Without the ephemeral flag, a failing store reports the persistence
error after one store call. -/
theorem storeStep_store_fail {P : Type} {store : SwKey P → Option String}
    (ctx : String) {key : SwKey P} {msg : String} (h : store key = some msg) :
    storeIfNotEphemeral store ctx false key
      = (.err (.storeFailed ctx msg), [key]) := by
  simp [storeIfNotEphemeral, h]

/-- A successful persistence step returns exactly the key it was given,
and its store-call log is empty in the ephemeral case and that single key
otherwise. -/
theorem storeStep_ok_inv {P : Type} {store : SwKey P → Option String}
    {ctx : String} {eph : Bool} {key k2 : SwKey P}
    (h : (storeIfNotEphemeral store ctx eph key).1 = .ok k2) :
    k2 = key ∧
      (storeIfNotEphemeral store ctx eph key).2
        = if eph then [] else [key] := by
  cases eph with
  | true => simpa [storeIfNotEphemeral] using h.symm
  | false =>
    cases hs : store key with
    | none =>
      refine ⟨?_, by simp [storeIfNotEphemeral, hs]⟩
      have := h
      rw [storeStep_store_ok ctx hs] at this
      simpa using this.symm
    | some msg =>
      have := h
      rw [storeStep_store_fail ctx hs] at this
      simp at this

/-- Errors coming out of the persistence step are persistence errors. -/
theorem storeStep_err_inv {P : Type} {store : SwKey P → Option String}
    {ctx : String} {eph : Bool} {key : SwKey P} {e : CspError}
    (h : (storeIfNotEphemeral store ctx eph key).1 = .err e) :
    ∃ msg, store key = some msg ∧ e = .storeFailed ctx msg ∧ eph = false := by
  cases eph with
  | true => simp [storeIfNotEphemeral] at h
  | false =>
    cases hs : store key with
    | none => rw [storeStep_store_ok ctx hs] at h; simp at h
    | some msg =>
      rw [storeStep_store_fail ctx hs] at h
      exact ⟨msg, rfl, by simpa using h.symm, rfl⟩

/-- The persistence step never panics. -/
theorem storeStep_ne_panicked {P : Type} (store : SwKey P → Option String)
    (ctx : String) (eph : Bool) (key : SwKey P) :
    (storeIfNotEphemeral store ctx eph key).1 ≠ .panicked := by
  cases eph with
  | true => simp [storeIfNotEphemeral]
  | false => cases hs : store key <;> simp [storeIfNotEphemeral, hs]

/-! ## General lemmas about group arithmetic -/

/-- Scalar multiples of a point of order `N` only depend on the scalar
modulo `N`. -/
theorem nsmul_mod_order {P : Type} [AddCommGroup P] {G : P} {N : Nat}
    (h : N • G = 0) (a : Nat) : (a % N) • G = a • G := by
  conv_rhs => rw [← Nat.div_add_mod a N]
  rw [add_nsmul, mul_nsmul, h, smul_zero, zero_add]

/-- A predicate that holds of a point and is preserved by addition holds
of every positive scalar multiple of that point. -/
theorem isOnCurve_nsmul {P : Type} [AddCommGroup P] {f : P → Bool} {G : P}
    (hAdd : ∀ p r : P, f p = true → f r = true → f (p + r) = true)
    (hG : f G = true) : ∀ m : Nat, 1 ≤ m → f (m • G) = true := by
  intro m hm
  induction m with
  | zero => omega
  | succ n ih =>
    rcases Nat.eq_or_lt_of_le hm with h1 | h1
    · rw [← h1, one_nsmul]; exact hG
    · rw [succ_nsmul]
      exact hAdd _ _ (ih (by omega)) hG

/-- `KeyDeriv` on a non-nil recognized key and non-nil options is the
derivation computation followed by the shared persistence step. -/
theorem keyDeriv_some_recognized {P : Type} [AddCommGroup P]
    (cm : CurveModel P) (conf : Config) (hmacSum : Bytes → Bytes → Bytes)
    (store : SwKey P → Option String) (key : SwKey P) (o : KeyDerivOptsV)
    (h : recognizedDerivKey key = true) :
    keyDeriv cm conf hmacSum store (some key) (some o)
      = match keyDerivCompute cm conf hmacSum key o with
        | .panicked => (.panicked, [])
        | .err e => (.err e, [])
        | .ok dk => storeIfNotEphemeral store "ECDSA" o.ephemeral dk := by
  simp [keyDeriv, h]

/-! ## The claims -/

/-- C2: for every EC private key with scalar `d` and expansion value `e`
(read big-endian), `KeyDeriv` with re-randomization options computes
`kk = (e mod (N - 1)) + 1` (so `1 ≤ kk ≤ N - 1`, never zero), derived
scalar `(d + kk) mod N` and derived public point `Q + kk • G`. -/
theorem keyDeriv_ecdsa_rerand_private_computation {P : Type}
    [AddCommGroup P] (cm : CurveModel P) (conf : Config)
    (hmacSum : Bytes → Bytes → Bytes) (store : SwKey P → Option String)
    (d : Nat) (q : P) (e : Bytes) (eph : Bool) (kk : Nat)
    (hN : 2 ≤ cm.N) (hkk : kk = bytesToNat e % (cm.N - 1) + 1)
    (hcurve : cm.isOnCurve (q + kk • cm.G) = true)
    (hstore : store (.ecdsaPrivateKey ((d + kk) % cm.N) (q + kk • cm.G))
      = none) :
    (keyDeriv cm conf hmacSum store (some (.ecdsaPrivateKey d q))
        (some (.ecdsaReRand eph e))).1
      = .ok (.ecdsaPrivateKey ((d + kk) % cm.N) (q + kk • cm.G))
    ∧ 1 ≤ kk ∧ kk ≤ cm.N - 1 := by
  have h0 : ¬cm.N - 1 = 0 := by omega
  have hcomp : keyDerivCompute cm conf hmacSum (.ecdsaPrivateKey d q)
      (.ecdsaReRand eph e)
      = .ok (.ecdsaPrivateKey ((d + kk) % cm.N) (q + kk • cm.G)) := by
    subst hkk
    simp [keyDerivCompute, h0, hcurve]
  refine ⟨?_, by omega, ?_⟩
  · rw [keyDeriv_some_recognized cm conf hmacSum store
      (.ecdsaPrivateKey d q) (.ecdsaReRand eph e) rfl, hcomp]
    cases eph <;>
      simp [KeyDerivOptsV.ephemeral, storeIfNotEphemeral, hstore]
  · have := Nat.mod_lt (bytesToNat e) (show 0 < cm.N - 1 by omega)
    omega

/-- C3: on an EC private key whose public point is `d • G`,
re-randomization returns a key whose public point is `dNew • G` for its
derived scalar `dNew`, and re-randomizing the corresponding public key
with the same expansion value yields exactly that public point. -/
theorem keyDeriv_ecdsa_rerand_consistency {P : Type} [AddCommGroup P]
    (cm : CurveModel P) (conf : Config) (hmacSum : Bytes → Bytes → Bytes)
    (store : SwKey P → Option String) (d : Nat) (e : Bytes) (eph : Bool)
    (kk : Nat) (hN : 2 ≤ cm.N) (hord : cm.N • cm.G = 0)
    (hkk : kk = bytesToNat e % (cm.N - 1) + 1)
    (hcurve : cm.isOnCurve (d • cm.G + kk • cm.G) = true)
    (hstore1 : store (.ecdsaPrivateKey ((d + kk) % cm.N)
        (d • cm.G + kk • cm.G)) = none)
    (hstore2 : store (.ecdsaPublicKey (d • cm.G + kk • cm.G)) = none) :
    (keyDeriv cm conf hmacSum store (some (.ecdsaPrivateKey d (d • cm.G)))
        (some (.ecdsaReRand eph e))).1
      = .ok (.ecdsaPrivateKey ((d + kk) % cm.N) (((d + kk) % cm.N) • cm.G))
    ∧ (keyDeriv cm conf hmacSum store (some (.ecdsaPublicKey (d • cm.G)))
        (some (.ecdsaReRand eph e))).1
      = .ok (.ecdsaPublicKey (((d + kk) % cm.N) • cm.G)) := by
  have h0 : ¬cm.N - 1 = 0 := by omega
  have hpt : ((d + kk) % cm.N) • cm.G = d • cm.G + kk • cm.G := by
    rw [nsmul_mod_order hord, add_nsmul]
  have hcompPriv : keyDerivCompute cm conf hmacSum
      (.ecdsaPrivateKey d (d • cm.G)) (.ecdsaReRand eph e)
      = .ok (.ecdsaPrivateKey ((d + kk) % cm.N)
          (d • cm.G + kk • cm.G)) := by
    subst hkk
    simp [keyDerivCompute, h0, hcurve]
  have hcompPub : keyDerivCompute cm conf hmacSum
      (.ecdsaPublicKey (d • cm.G)) (.ecdsaReRand eph e)
      = .ok (.ecdsaPublicKey (d • cm.G + kk • cm.G)) := by
    subst hkk
    simp [keyDerivCompute, h0, hcurve]
  constructor
  · rw [hpt, keyDeriv_some_recognized cm conf hmacSum store
      (.ecdsaPrivateKey d (d • cm.G)) (.ecdsaReRand eph e) rfl, hcompPriv]
    cases eph <;>
      simp [KeyDerivOptsV.ephemeral, storeIfNotEphemeral, hstore1]
  · rw [hpt, keyDeriv_some_recognized cm conf hmacSum store
      (.ecdsaPublicKey (d • cm.G)) (.ecdsaReRand eph e) rfl, hcompPub]
    cases eph <;>
      simp [KeyDerivOptsV.ephemeral, storeIfNotEphemeral, hstore2]


/-- C4: in both EC re-randomization branches the call fails with the
curve-validation error exactly when the IsOnCurve check on the new point
fails; and when the curve check is preserved by point addition and holds
of the base point and of the original point, the new point passes the
check, so the error branch is unreachable. -/
theorem keyDeriv_rerand_oncurve_guard {P : Type} [AddCommGroup P]
    (cm : CurveModel P) (conf : Config) (hmacSum : Bytes → Bytes → Bytes)
    (store : SwKey P → Option String) (d : Nat) (q : P) (e : Bytes)
    (eph : Bool) (kk : Nat) (hN : 2 ≤ cm.N)
    (hkk : kk = bytesToNat e % (cm.N - 1) + 1)
    (hAdd : ∀ p r : P, cm.isOnCurve p = true → cm.isOnCurve r = true →
      cm.isOnCurve (p + r) = true)
    (hG : cm.isOnCurve cm.G = true) :
    ((keyDeriv cm conf hmacSum store (some (.ecdsaPrivateKey d q))
        (some (.ecdsaReRand eph e))).1 = .err .isOnCurveFailed
      ↔ cm.isOnCurve (q + kk • cm.G) = false)
    ∧ ((keyDeriv cm conf hmacSum store (some (.ecdsaPublicKey q))
        (some (.ecdsaReRand eph e))).1 = .err .isOnCurveFailed
      ↔ cm.isOnCurve (q + kk • cm.G) = false)
    ∧ (cm.isOnCurve q = true →
        cm.isOnCurve (q + kk • cm.G) = true
        ∧ (keyDeriv cm conf hmacSum store (some (.ecdsaPrivateKey d q))
            (some (.ecdsaReRand eph e))).1 ≠ .err .isOnCurveFailed
        ∧ (keyDeriv cm conf hmacSum store (some (.ecdsaPublicKey q))
            (some (.ecdsaReRand eph e))).1 ≠ .err .isOnCurveFailed) := by
  have h0 : ¬cm.N - 1 = 0 := by omega
  have hprivIff : (keyDeriv cm conf hmacSum store
      (some (.ecdsaPrivateKey d q)) (some (.ecdsaReRand eph e))).1
        = .err .isOnCurveFailed
      ↔ cm.isOnCurve (q + kk • cm.G) = false := by
    rw [keyDeriv_some_recognized cm conf hmacSum store
      (.ecdsaPrivateKey d q) (.ecdsaReRand eph e) rfl]
    cases hc : cm.isOnCurve (q + kk • cm.G) with
    | true =>
      have hcomp : keyDerivCompute cm conf hmacSum (.ecdsaPrivateKey d q)
          (.ecdsaReRand eph e)
          = .ok (.ecdsaPrivateKey ((d + kk) % cm.N) (q + kk • cm.G)) := by
        subst hkk
        simp [keyDerivCompute, h0, hc]
      rw [hcomp]
      simp only [Bool.true_eq_false, iff_false]
      intro h
      obtain ⟨msg, -, habs, -⟩ := storeStep_err_inv h
      exact CspError.noConfusion habs
    | false =>
      have hcomp : keyDerivCompute cm conf hmacSum (.ecdsaPrivateKey d q)
          (.ecdsaReRand eph e) = .err .isOnCurveFailed := by
        subst hkk
        simp [keyDerivCompute, h0, hc]
      rw [hcomp]
      simp
  have hpubIff : (keyDeriv cm conf hmacSum store
      (some (.ecdsaPublicKey q)) (some (.ecdsaReRand eph e))).1
        = .err .isOnCurveFailed
      ↔ cm.isOnCurve (q + kk • cm.G) = false := by
    rw [keyDeriv_some_recognized cm conf hmacSum store
      (.ecdsaPublicKey q) (.ecdsaReRand eph e) rfl]
    cases hc : cm.isOnCurve (q + kk • cm.G) with
    | true =>
      have hcomp : keyDerivCompute cm conf hmacSum (.ecdsaPublicKey q)
          (.ecdsaReRand eph e) = .ok (.ecdsaPublicKey (q + kk • cm.G)) := by
        subst hkk
        simp [keyDerivCompute, h0, hc]
      rw [hcomp]
      simp only [Bool.true_eq_false, iff_false]
      intro h
      obtain ⟨msg, -, habs, -⟩ := storeStep_err_inv h
      exact CspError.noConfusion habs
    | false =>
      have hcomp : keyDerivCompute cm conf hmacSum (.ecdsaPublicKey q)
          (.ecdsaReRand eph e) = .err .isOnCurveFailed := by
        subst hkk
        simp [keyDerivCompute, h0, hc]
      rw [hcomp]
      simp
  refine ⟨hprivIff, hpubIff, fun hQ => ?_⟩
  have hk1 : 1 ≤ kk := by omega
  have hon : cm.isOnCurve (q + kk • cm.G) = true :=
    hAdd _ _ hQ (isOnCurve_nsmul hAdd hG kk hk1)
  refine ⟨hon, fun h => ?_, fun h => ?_⟩
  · rw [hprivIff] at h
    rw [hon] at h
    exact Bool.noConfusion h
  · rw [hpubIff] at h
    rw [hon] at h
    exact Bool.noConfusion h

/-- C5: HMAC derivation on a symmetric key computes the keyed MAC of the
argument under the key material; the truncated variant keeps exactly the
configured symmetric key length in bytes and is marked non-exportable,
the full variant keeps the entire MAC (the native digest length of the
configured hash) and is marked exportable. -/
theorem keyDeriv_hmac_variants {P : Type} [AddCommGroup P]
    (cm : CurveModel P) (conf : Config) (hmacSum : Bytes → Bytes → Bytes)
    (store : SwKey P → Option String) (material arg : Bytes)
    (expFlag eph : Bool)
    (hlen : (hmacSum material arg).length = conf.hashLength)
    (hfit : conf.aesBitLength ≤ conf.hashLength)
    (hstore1 : store (.aesPrivateKey
      ((hmacSum material arg).take conf.aesBitLength) false) = none)
    (hstore2 : store (.aesPrivateKey (hmacSum material arg) true) = none) :
    (keyDeriv cm conf hmacSum store (some (.aesPrivateKey material expFlag))
        (some (.hmacTruncated256 eph arg))).1
      = .ok (.aesPrivateKey
          ((hmacSum material arg).take conf.aesBitLength) false)
    ∧ ((hmacSum material arg).take conf.aesBitLength).length
        = conf.aesBitLength
    ∧ (keyDeriv cm conf hmacSum store (some (.aesPrivateKey material expFlag))
        (some (.hmacDeriv eph arg))).1
      = .ok (.aesPrivateKey (hmacSum material arg) true)
    ∧ (hmacSum material arg).length = conf.hashLength := by
  have hle : conf.aesBitLength ≤ (hmacSum material arg).length := by omega
  have hslice : goSliceTo (hmacSum material arg) conf.aesBitLength
      = some ((hmacSum material arg).take conf.aesBitLength) := by
    simp [goSliceTo, hle]
  refine ⟨?_, ?_, ?_, hlen⟩
  · rw [keyDeriv_some_recognized cm conf hmacSum store
      (.aesPrivateKey material expFlag) (.hmacTruncated256 eph arg) rfl]
    have hcomp : keyDerivCompute cm conf hmacSum
        (.aesPrivateKey material expFlag) (.hmacTruncated256 eph arg)
        = .ok (.aesPrivateKey
            ((hmacSum material arg).take conf.aesBitLength) false) := by
      simp [keyDerivCompute, hslice]
    rw [hcomp]
    cases eph <;>
      simp [KeyDerivOptsV.ephemeral, storeIfNotEphemeral, hstore1]
  · rw [List.length_take]
    omega
  · rw [keyDeriv_some_recognized cm conf hmacSum store
      (.aesPrivateKey material expFlag) (.hmacDeriv eph arg) rfl]
    have hcomp : keyDerivCompute cm conf hmacSum
        (.aesPrivateKey material expFlag) (.hmacDeriv eph arg)
        = .ok (.aesPrivateKey (hmacSum material arg) true) := by
      simp [keyDerivCompute]
    rw [hcomp]
    cases eph <;>
      simp [KeyDerivOptsV.ephemeral, storeIfNotEphemeral, hstore2]

/-- C10: the truncated HMAC derivation branch slices the MAC output with
the configured symmetric key byte length; the call is total (does not
panic) exactly when that length does not exceed the digest length of the
configured hash, and an oversized configuration makes the branch panic
out of range rather than return an error. -/
theorem keyDeriv_hmac_truncated_bounds {P : Type} [AddCommGroup P]
    (cm : CurveModel P) (conf : Config) (hmacSum : Bytes → Bytes → Bytes)
    (store : SwKey P → Option String) (material arg : Bytes)
    (expFlag eph : Bool)
    (hlen : (hmacSum material arg).length = conf.hashLength) :
    ((keyDeriv cm conf hmacSum store (some (.aesPrivateKey material expFlag))
        (some (.hmacTruncated256 eph arg))).1 = .panicked
      ↔ conf.hashLength < conf.aesBitLength)
    ∧ (conf.hashLength < conf.aesBitLength →
        keyDeriv cm conf hmacSum store (some (.aesPrivateKey material expFlag))
          (some (.hmacTruncated256 eph arg)) = (.panicked, [])) := by
  rw [keyDeriv_some_recognized cm conf hmacSum store
    (.aesPrivateKey material expFlag) (.hmacTruncated256 eph arg) rfl]
  by_cases hlt : conf.hashLength < conf.aesBitLength
  · have hslice : goSliceTo (hmacSum material arg) conf.aesBitLength
        = none := by
      simp only [goSliceTo, hlen]
      rw [if_neg (by omega)]
    have hcomp : keyDerivCompute cm conf hmacSum
        (.aesPrivateKey material expFlag) (.hmacTruncated256 eph arg)
        = .panicked := by
      simp [keyDerivCompute, hslice]
    rw [hcomp]
    exact ⟨by simp [hlt], fun _ => rfl⟩
  · have hle : conf.aesBitLength ≤ (hmacSum material arg).length := by omega
    have hslice : goSliceTo (hmacSum material arg) conf.aesBitLength
        = some ((hmacSum material arg).take conf.aesBitLength) := by
      simp [goSliceTo, hle]
    have hcomp : keyDerivCompute cm conf hmacSum
        (.aesPrivateKey material expFlag) (.hmacTruncated256 eph arg)
        = .ok (.aesPrivateKey
            ((hmacSum material arg).take conf.aesBitLength) false) := by
      simp [keyDerivCompute, hslice]
    rw [hcomp]
    exact ⟨⟨fun h => absurd h (storeStep_ne_panicked store "ECDSA" _ _),
      fun h => absurd h hlt⟩, fun h => absurd h hlt⟩


/-- C6: on every successful `KeyGen`, `KeyDeriv` or `KeyImport` call, the
key store is never invoked when the ephemeral flag is set, and is invoked
exactly once — with the returned key — when it is not. -/
theorem creation_store_call_policy {P : Type} [AddCommGroup P]
    (cm : CurveModel P) (conf : Config) (hmacSum : Bytes → Bytes → Bytes)
    (genv : GenEnv P) (ienv : ImportEnv P)
    (store : SwKey P → Option String) :
    (∀ (o : KeyGenOptsV) (k2 : SwKey P),
        (keyGen conf genv store (some o)).1 = .ok k2 →
        (keyGen conf genv store (some o)).2
          = if o.ephemeral then [] else [k2])
    ∧ (∀ (key : SwKey P) (o : KeyDerivOptsV) (k2 : SwKey P),
        (keyDeriv cm conf hmacSum store (some key) (some o)).1 = .ok k2 →
        (keyDeriv cm conf hmacSum store (some key) (some o)).2
          = if o.ephemeral then [] else [k2])
    ∧ (∀ (rawV : RawMaterial P) (o : KeyImportOptsV) (k2 : SwKey P),
        (keyImport ienv store (some rawV) (some o)).1 = .ok k2 →
        (keyImport ienv store (some rawV) (some o)).2
          = if o.ephemeral then [] else [k2]) := by
  refine ⟨?_, ?_, ?_⟩
  · intro o k2 h
    cases hg : keyGenCompute conf genv o with
    | error e => simp [keyGen, hg] at h
    | ok kk =>
      simp only [keyGen, hg] at h ⊢
      obtain ⟨rfl, h2⟩ := storeStep_ok_inv h
      exact h2
  · intro key o k2 h
    by_cases hr : recognizedDerivKey key = true
    · cases hg : keyDerivCompute cm conf hmacSum key o with
      | panicked =>
        simp [keyDeriv_some_recognized cm conf hmacSum store key o hr,
          hg] at h
      | err e =>
        simp [keyDeriv_some_recognized cm conf hmacSum store key o hr,
          hg] at h
      | ok dk =>
        simp only [keyDeriv_some_recognized cm conf hmacSum store key o hr,
          hg] at h ⊢
        obtain ⟨rfl, h2⟩ := storeStep_ok_inv h
        exact h2
    · rw [Bool.not_eq_true] at hr
      simp [keyDeriv, hr] at h
  · intro rawV o k2 h
    cases hg : keyImportCompute ienv rawV o with
    | error e => simp [keyImport, hg] at h
    | ok ck =>
      simp only [keyImport, hg] at h ⊢
      obtain ⟨rfl, h2⟩ := storeStep_ok_inv h
      exact h2

/-- C1 (amended): in `KeyGen`, `KeyDeriv` and `KeyImport` with a
non-ephemeral options variant, when the key has been successfully computed
(the call succeeds under an accepting store) but `StoreKey` fails, the
call reports the persistence error and returns a nil key: the computed key
was passed to the store once but is discarded from the result rather than
returned to the caller. -/
theorem store_failure_reports_error_and_discards_key {P : Type}
    [AddCommGroup P] (cm : CurveModel P) (conf : Config)
    (hmacSum : Bytes → Bytes → Bytes) (genv : GenEnv P) (ienv : ImportEnv P)
    (msg : String) :
    (∀ (o : KeyGenOptsV) (k2 : SwKey P), o.ephemeral = false →
        (keyGen conf genv (fun _ => none) (some o)).1 = .ok k2 →
        keyGen conf genv (fun _ => some msg) (some o)
          = (.err (.storeFailed o.algorithmName msg), [k2]))
    ∧ (∀ (key : SwKey P) (o : KeyDerivOptsV) (k2 : SwKey P),
        o.ephemeral = false →
        (keyDeriv cm conf hmacSum (fun _ => none) (some key) (some o)).1
          = .ok k2 →
        keyDeriv cm conf hmacSum (fun _ => some msg) (some key) (some o)
          = (.err (.storeFailed "ECDSA" msg), [k2]))
    ∧ (∀ (rawV : RawMaterial P) (o : KeyImportOptsV) (k2 : SwKey P),
        o.ephemeral = false →
        (keyImport ienv (fun _ => none) (some rawV) (some o)).1 = .ok k2 →
        ∃ ctx, keyImport ienv (fun _ => some msg) (some rawV) (some o)
          = (.err (.storeFailed ctx msg), [k2])) := by
  refine ⟨?_, ?_, ?_⟩
  · intro o k2 heph h
    cases hg : keyGenCompute conf genv o with
    | error e => simp [keyGen, hg] at h
    | ok kk =>
      simp only [keyGen, hg] at h ⊢
      obtain ⟨rfl, -⟩ := storeStep_ok_inv h
      rw [heph, storeStep_store_fail o.algorithmName rfl]
  · intro key o k2 heph h
    by_cases hr : recognizedDerivKey key = true
    · cases hg : keyDerivCompute cm conf hmacSum key o with
      | panicked =>
        simp [keyDeriv_some_recognized cm conf hmacSum (fun _ => none)
          key o hr, hg] at h
      | err e =>
        simp [keyDeriv_some_recognized cm conf hmacSum (fun _ => none)
          key o hr, hg] at h
      | ok dk =>
        simp only [keyDeriv_some_recognized cm conf hmacSum (fun _ => none)
          key o hr, hg] at h
        obtain ⟨rfl, -⟩ := storeStep_ok_inv h
        simp only [keyDeriv_some_recognized cm conf hmacSum
          (fun _ => some msg) key o hr, hg, heph]
        exact storeStep_store_fail "ECDSA"
          (show (fun _ : SwKey P => some msg) k2 = some msg from rfl)
    · rw [Bool.not_eq_true] at hr
      simp [keyDeriv, hr] at h
  · intro rawV o k2 heph h
    cases hg : keyImportCompute ienv rawV o with
    | error e => simp [keyImport, hg] at h
    | ok ck =>
      simp only [keyImport, hg] at h ⊢
      obtain ⟨rfl, -⟩ := storeStep_ok_inv h
      refine ⟨ck.1, ?_⟩
      rw [heph, storeStep_store_fail ck.1 rfl]

/-- C7 (amended): `KeyDeriv` rejects a nil key with the invalid-argument
error; a recognized key variant with nil options gets the invalid-argument
options error; an unrecognized key variant gets the key-type unsupported
error regardless of the options (nil included); and a recognized key with
an options variant outside the supported combinations gets the
unsupported-operation error naming the options value. -/
theorem keyDeriv_dispatch_errors {P : Type} [AddCommGroup P]
    (cm : CurveModel P) (conf : Config) (hmacSum : Bytes → Bytes → Bytes)
    (store : SwKey P → Option String) :
    (∀ opts : Option KeyDerivOptsV,
        (keyDeriv cm conf hmacSum store none opts).1 = .err .invalidKeyNil)
    ∧ (∀ key : SwKey P, recognizedDerivKey key = true →
        (keyDeriv cm conf hmacSum store (some key) none).1
          = .err .invalidOptsNil)
    ∧ (∀ (key : SwKey P) (opts : Option KeyDerivOptsV),
        recognizedDerivKey key = false →
        (keyDeriv cm conf hmacSum store (some key) opts).1
          = .err .keyTypeNotRecognized)
    ∧ (∀ (key : SwKey P) (o : KeyDerivOptsV),
        recognizedDerivKey key = true →
        supportedDerivCombo key o = false →
        (keyDeriv cm conf hmacSum store (some key) (some o)).1
          = .err (.unrecognizedKeyDerivOpts o.algorithmName)) := by
  refine ⟨fun opts => rfl, ?_, ?_, ?_⟩
  · intro key hr
    simp [keyDeriv, hr]
  · intro key opts hr
    simp [keyDeriv, hr]
  · intro key o hr hcombo
    cases key <;> cases o <;>
      simp_all [keyDeriv, keyDerivCompute, recognizedDerivKey,
        supportedDerivCombo, KeyDerivOptsV.algorithmName]

/-- C8: the 256-bit symmetric import variant of `KeyImport` succeeds and
returns a symmetric key exactly when the raw material is a byte array of
exactly 32 bytes; any other byte-array length fails with the length error
naming the actual length. -/
theorem keyImport_aes256_length_check {P : Type} (ienv : ImportEnv P)
    (store : SwKey P → Option String) :
    (∀ (b : Bytes) (eph : Bool), b.length = 32 →
        store (.aesPrivateKey b false) = none →
        (keyImport ienv store (some (.byteArray b))
            (some (.aes256Import eph))).1
          = .ok (.aesPrivateKey b false))
    ∧ (∀ (b : Bytes) (eph : Bool), b.length ≠ 32 →
        (keyImport ienv store (some (.byteArray b))
            (some (.aes256Import eph))).1
          = .err (.invalidKeyLength b.length))
    ∧ (∀ (rawV : RawMaterial P) (eph : Bool) (k2 : SwKey P),
        (keyImport ienv store (some rawV) (some (.aes256Import eph))).1
          = .ok k2 →
        ∃ b : Bytes, rawV = .byteArray b ∧ b.length = 32
          ∧ k2 = .aesPrivateKey b false) := by
  refine ⟨?_, ?_, ?_⟩
  · intro b eph hb hstore
    have hcomp : keyImportCompute ienv (.byteArray b) (.aes256Import eph)
        = .ok ("AES", .aesPrivateKey b false) := by
      simp [keyImportCompute, hb]
    simp only [keyImport, hcomp]
    cases eph <;>
      simp [KeyImportOptsV.ephemeral, storeIfNotEphemeral, hstore]
  · intro b eph hb
    have hcomp : keyImportCompute ienv (.byteArray b) (.aes256Import eph)
        = .error (.invalidKeyLength b.length) := by
      simp [keyImportCompute, hb]
    simp [keyImport, hcomp]
  · intro rawV eph k2 h
    cases rawV with
    | byteArray b =>
      by_cases hb : b.length = 32
      · refine ⟨b, rfl, hb, ?_⟩
        have hcomp : keyImportCompute ienv (.byteArray b)
            (.aes256Import eph) = .ok ("AES", .aesPrivateKey b false) := by
          simp [keyImportCompute, hb]
        simp only [keyImport, hcomp] at h
        obtain ⟨rfl, -⟩ := storeStep_ok_inv h
        rfl
      · have hcomp : keyImportCompute ienv (.byteArray b)
            (.aes256Import eph) = .error (.invalidKeyLength b.length) := by
          simp [keyImportCompute, hb]
        simp [keyImport, hcomp] at h
    | goEcdsaPublicKey q => simp [keyImport, keyImportCompute] at h
    | goRsaPublicKey m => simp [keyImport, keyImportCompute] at h
    | x509Certificate pk => simp [keyImport, keyImportCompute] at h
    | otherRaw => simp [keyImport, keyImportCompute] at h

/-- C9 (amended): symmetric keys produced by `KeyImport` — both the
256-bit symmetric import variant and the generic HMAC-key import
variant — carry an exportable flag set to non-exportable (`false`). -/
theorem keyImport_symmetric_nonexportable {P : Type} (ienv : ImportEnv P)
    (store : SwKey P → Option String) :
    ∀ (rawV : RawMaterial P) (eph : Bool) (k2 : SwKey P),
      ((keyImport ienv store (some rawV) (some (.aes256Import eph))).1
          = .ok k2
        ∨ (keyImport ienv store (some rawV) (some (.hmacImport eph))).1
          = .ok k2) →
      k2.exportableFlag = some false := by
  intro rawV eph k2 h
  rcases h with h | h
  · cases rawV with
    | byteArray b =>
      by_cases hb : b.length = 32
      · have hcomp : keyImportCompute ienv (RawMaterial.byteArray b)
            (.aes256Import eph)
            = .ok ("AES", .aesPrivateKey b false) := by
          simp [keyImportCompute, hb]
        simp only [keyImport, hcomp] at h
        obtain ⟨rfl, -⟩ := storeStep_ok_inv h
        rfl
      · have hcomp : keyImportCompute ienv (RawMaterial.byteArray b)
            (.aes256Import eph)
            = .error (.invalidKeyLength b.length) := by
          simp [keyImportCompute, hb]
        simp [keyImport, hcomp] at h
    | goEcdsaPublicKey q => simp [keyImport, keyImportCompute] at h
    | goRsaPublicKey m => simp [keyImport, keyImportCompute] at h
    | x509Certificate pk => simp [keyImport, keyImportCompute] at h
    | otherRaw => simp [keyImport, keyImportCompute] at h
  · cases rawV with
    | byteArray b =>
      by_cases hb : b.length = 0
      · have hcomp : keyImportCompute ienv (RawMaterial.byteArray b)
            (.hmacImport eph)
            = .error (.invalidRawEmpty "HMACImportKeyOpts") := by
          simp [keyImportCompute, hb]
        simp [keyImport, hcomp] at h
      · have hcomp : keyImportCompute ienv (RawMaterial.byteArray b)
            (.hmacImport eph)
            = .ok ("AES", .aesPrivateKey b false) := by
          simp [keyImportCompute, hb]
        simp only [keyImport, hcomp] at h
        obtain ⟨rfl, -⟩ := storeStep_ok_inv h
        rfl
    | goEcdsaPublicKey q => simp [keyImport, keyImportCompute] at h
    | goRsaPublicKey m => simp [keyImport, keyImportCompute] at h
    | x509Certificate pk => simp [keyImport, keyImportCompute] at h
    | otherRaw => simp [keyImport, keyImportCompute] at h


/-! ## Counterexamples and concrete witnesses -/

/-- C1 (counterexample): with a failing key store and a non-ephemeral
HMAC derivation, the computed key is passed to the store but the call
returns only the persistence error — the key is not returned to the
caller. -/
theorem keyDeriv_store_failure_cex :
    keyDeriv cm5 conf5 hmac5 storeFail5 (some (.aesPrivateKey [1] false))
        (some (.hmacDeriv false [2]))
      = (.err (.storeFailed "ECDSA" "boom"),
          [.aesPrivateKey [1, 2, 7] true])
    ∧ (keyDeriv cm5 conf5 hmac5 storeFail5 (some (.aesPrivateKey [1] false))
        (some (.hmacDeriv false [2]))).1.isOk = false := by decide

/-- C1 (witness): the amended store-failure property at a concrete
derivation. -/
theorem store_failure_reports_error_and_discards_key_witness :
    keyDeriv cm5 conf5 hmac5 (fun _ => some "boom")
        (some (.aesPrivateKey [1] false)) (some (.hmacDeriv false [2]))
      = (.err (.storeFailed "ECDSA" "boom"),
          [.aesPrivateKey [1, 2, 7] true]) :=
  (store_failure_reports_error_and_discards_key cm5 conf5 hmac5 genv5 ienv5
      "boom").2.1 (.aesPrivateKey [1] false) (.hmacDeriv false [2])
    (.aesPrivateKey [1, 2, 7] true) (by decide) (by decide)

/-- C2 (witness): the private-key re-randomization computation on the
five-element group, `e = [7]`, so `kk = 7 mod 4 + 1 = 4`. -/
theorem keyDeriv_ecdsa_rerand_private_computation_witness :
    (keyDeriv cm5 conf5 hmac5 storeOk5 (some (.ecdsaPrivateKey 2 3))
        (some (.ecdsaReRand true [7]))).1
      = .ok (.ecdsaPrivateKey ((2 + 4) % cm5.N) ((3 : ZMod 5) + 4 • cm5.G))
    ∧ 1 ≤ 4 ∧ 4 ≤ cm5.N - 1 :=
  keyDeriv_ecdsa_rerand_private_computation cm5 conf5 hmac5 storeOk5
    2 3 [7] true 4 (by decide) (by decide) (by decide) (by decide)

/-- C3 (witness): private/public re-randomization consistency on the
five-element group. -/
theorem keyDeriv_ecdsa_rerand_consistency_witness :
    (keyDeriv cm5 conf5 hmac5 storeOk5
        (some (.ecdsaPrivateKey 2 (2 • cm5.G)))
        (some (.ecdsaReRand true [7]))).1
      = .ok (.ecdsaPrivateKey ((2 + 4) % cm5.N) (((2 + 4) % cm5.N) • cm5.G))
    ∧ (keyDeriv cm5 conf5 hmac5 storeOk5
        (some (.ecdsaPublicKey (2 • cm5.G)))
        (some (.ecdsaReRand true [7]))).1
      = .ok (.ecdsaPublicKey (((2 + 4) % cm5.N) • cm5.G)) :=
  keyDeriv_ecdsa_rerand_consistency cm5 conf5 hmac5 storeOk5 2 [7] true 4
    (by decide) (by decide) (by decide) (by decide) (by decide) (by decide)

/-- C4 (witness): the on-curve guard at a concrete instance whose curve
check is closed under addition. -/
theorem keyDeriv_rerand_oncurve_guard_witness :
    ((keyDeriv cm5 conf5 hmac5 storeOk5 (some (.ecdsaPrivateKey 2 3))
        (some (.ecdsaReRand true [7]))).1 = .err .isOnCurveFailed
      ↔ cm5.isOnCurve ((3 : ZMod 5) + 4 • cm5.G) = false)
    ∧ ((keyDeriv cm5 conf5 hmac5 storeOk5 (some (.ecdsaPublicKey 3))
        (some (.ecdsaReRand true [7]))).1 = .err .isOnCurveFailed
      ↔ cm5.isOnCurve ((3 : ZMod 5) + 4 • cm5.G) = false)
    ∧ (cm5.isOnCurve (3 : ZMod 5) = true →
        cm5.isOnCurve ((3 : ZMod 5) + 4 • cm5.G) = true
        ∧ (keyDeriv cm5 conf5 hmac5 storeOk5 (some (.ecdsaPrivateKey 2 3))
            (some (.ecdsaReRand true [7]))).1 ≠ .err .isOnCurveFailed
        ∧ (keyDeriv cm5 conf5 hmac5 storeOk5 (some (.ecdsaPublicKey 3))
            (some (.ecdsaReRand true [7]))).1 ≠ .err .isOnCurveFailed) :=
  keyDeriv_rerand_oncurve_guard cm5 conf5 hmac5 storeOk5 2 3 [7] true 4
    (by decide) (by decide) (by decide) (by decide)

/-- C5 (witness): both HMAC derivation variants at a concrete key and
argument. -/
theorem keyDeriv_hmac_variants_witness :
    (keyDeriv cm5 conf5 hmac5 storeOk5 (some (.aesPrivateKey [1] false))
        (some (.hmacTruncated256 true [2]))).1
      = .ok (.aesPrivateKey ((hmac5 [1] [2]).take conf5.aesBitLength) false)
    ∧ ((hmac5 [1] [2]).take conf5.aesBitLength).length = conf5.aesBitLength
    ∧ (keyDeriv cm5 conf5 hmac5 storeOk5 (some (.aesPrivateKey [1] false))
        (some (.hmacDeriv true [2]))).1
      = .ok (.aesPrivateKey (hmac5 [1] [2]) true)
    ∧ (hmac5 [1] [2]).length = conf5.hashLength :=
  keyDeriv_hmac_variants cm5 conf5 hmac5 storeOk5 [1] [2] false true
    (by decide) (by decide) (by decide) (by decide)

/-- C6 (witness): the store-call policy at a concrete non-ephemeral key
generation. -/
theorem creation_store_call_policy_witness :
    (keyGen conf5 genv5 storeOk5 (some (.aes128Gen false))).2
      = if (KeyGenOptsV.aes128Gen false).ephemeral then []
        else [.aesPrivateKey (List.replicate 16 0) false] :=
  (creation_store_call_policy cm5 conf5 hmac5 genv5 ienv5 storeOk5).1
    (.aes128Gen false) (.aesPrivateKey (List.replicate 16 0) false)
    (by decide)

/-- C7 (counterexample): an RSA private key with nil options makes
`KeyDeriv` return the key-type unsupported error, not the nil-options
invalid-argument error the claim requires. -/
theorem keyDeriv_nil_opts_unrecognized_key_cex :
    (keyDeriv cm5 conf5 hmac5 storeOk5 (some (.rsaPrivateKey 0)) none).1
      = .err .keyTypeNotRecognized
    ∧ (keyDeriv cm5 conf5 hmac5 storeOk5 (some (.rsaPrivateKey 0)) none).1
      ≠ .err .invalidOptsNil := by decide

/-- C7 (witness): the unsupported-combination error at a concrete
symmetric key with re-randomization options. -/
theorem keyDeriv_dispatch_errors_witness :
    (keyDeriv cm5 conf5 hmac5 storeOk5 (some (.aesPrivateKey [1] false))
        (some (.ecdsaReRand true [2]))).1
      = .err (.unrecognizedKeyDerivOpts
          (KeyDerivOptsV.ecdsaReRand true [2]).algorithmName) :=
  (keyDeriv_dispatch_errors cm5 conf5 hmac5 storeOk5).2.2.2
    (.aesPrivateKey [1] false) (.ecdsaReRand true [2]) (by decide)
    (by decide)

/-- C8 (witness): 32 bytes are accepted, 31 and 33 bytes are rejected
with the length error naming the actual length. -/
theorem keyImport_aes256_length_check_witness :
    (keyImport ienv5 storeOk5 (some (.byteArray (List.replicate 32 0)))
        (some (.aes256Import false))).1
      = .ok (.aesPrivateKey (List.replicate 32 0) false)
    ∧ (keyImport ienv5 storeOk5 (some (.byteArray (List.replicate 31 0)))
        (some (.aes256Import false))).1
      = .err (.invalidKeyLength (List.replicate 31 (0 : Nat)).length)
    ∧ (keyImport ienv5 storeOk5 (some (.byteArray (List.replicate 33 0)))
        (some (.aes256Import false))).1
      = .err (.invalidKeyLength (List.replicate 33 (0 : Nat)).length) :=
  ⟨(keyImport_aes256_length_check ienv5 storeOk5).1 (List.replicate 32 0)
      false (by decide) (by decide),
    (keyImport_aes256_length_check ienv5 storeOk5).2.1 (List.replicate 31 0)
      false (by decide),
    (keyImport_aes256_length_check ienv5 storeOk5).2.1 (List.replicate 33 0)
      false (by decide)⟩

/-- C9 (counterexample): both symmetric import variants return keys whose
exportable flag is `false`, not `true` as the claim states. -/
theorem keyImport_symmetric_exportable_cex :
    (keyImport ienv5 storeOk5 (some (.byteArray (List.replicate 32 0)))
        (some (.aes256Import true))).1
      = .ok (.aesPrivateKey (List.replicate 32 0) false)
    ∧ (keyImport ienv5 storeOk5 (some (.byteArray (List.replicate 32 0)))
        (some (.aes256Import true))).1
      ≠ .ok (.aesPrivateKey (List.replicate 32 0) true)
    ∧ (keyImport ienv5 storeOk5 (some (.byteArray [1]))
        (some (.hmacImport true))).1
      = .ok (.aesPrivateKey [1] false)
    ∧ (keyImport ienv5 storeOk5 (some (.byteArray [1]))
        (some (.hmacImport true))).1
      ≠ .ok (.aesPrivateKey [1] true) := by decide

/-- C9 (witness): the non-exportable flag of a concretely imported
symmetric key. -/
theorem keyImport_symmetric_nonexportable_witness :
    (SwKey.aesPrivateKey (List.replicate 32 (0 : Nat)) false
      : SwKey (ZMod 5)).exportableFlag = some false :=
  keyImport_symmetric_nonexportable ienv5 storeOk5
    (.byteArray (List.replicate 32 0)) true
    (.aesPrivateKey (List.replicate 32 0) false) (Or.inl (by decide))

/-- C10 (witness): with a 9-byte symmetric key length over a 3-byte
digest, the truncated branch panics. -/
theorem keyDeriv_hmac_truncated_bounds_witness :
    ((keyDeriv cm5 confBad hmac5 storeOk5 (some (.aesPrivateKey [1] false))
        (some (.hmacTruncated256 true [2]))).1 = .panicked
      ↔ confBad.hashLength < confBad.aesBitLength)
    ∧ (confBad.hashLength < confBad.aesBitLength →
        keyDeriv cm5 confBad hmac5 storeOk5 (some (.aesPrivateKey [1] false))
          (some (.hmacTruncated256 true [2])) = (.panicked, [])) :=
  keyDeriv_hmac_truncated_bounds cm5 confBad hmac5 storeOk5 [1] [2]
    false true (by decide)

end BccspSw
